import Mathlib

/-!
Verification development for the MemoVault encryption and sync core.

The TypeScript source is shallow-embedded:
bytes are lists of Fin 256, the Web Crypto API (AES-GCM, PBKDF2, btoa/atob,
TextEncoder) is a structure of abstract primitive functions, randomness
(getRandomValues, randomUUID) is passed in as explicit arguments, and
fallible operations (thrown exceptions, rejected promises) return Option.
Web Crypto key objects carry their algorithm name, extractability flag and
usage list, because crypto.subtle enforces these on every operation.
-/

/-- A byte. -/
abbrev Byte := Fin 256

/-- A byte buffer (Uint8Array / ArrayBuffer contents). -/
abbrev Bytes := List Byte

/-- Abstract model of the Web platform crypto primitives used by the code.
aesGcmEnc key iv plaintext yields the ciphertext including the GCM tag;
aesGcmDec is none on any authentication failure.  pbkdf2 takes the password
bytes, the salt, the iteration count and the output size in bits.  btoaFn
and atobFn are the platform base64 codec on binary strings (a JS string of
char codes below 256 is identified with its byte list). -/
structure WebCrypto where
  aesGcmEnc : Bytes → Bytes → Bytes → Bytes
  aesGcmDec : Bytes → Bytes → Bytes → Option Bytes
  pbkdf2 : Bytes → Bytes → Nat → Nat → Bytes
  utf8Encode : String → Bytes
  utf8Decode : Bytes → String
  btoaFn : Bytes → String
  atobFn : String → Bytes

/-- AES-GCM decrypts what it encrypted, under the same key and nonce. -/
def GcmCorrect (W : WebCrypto) : Prop :=
  ∀ k iv p, W.aesGcmDec k iv (W.aesGcmEnc k iv p) = some p

/-- AES-GCM refuses every ciphertext obtained from a genuine one by changing
a single byte (the ideal-AEAD tamper-rejection property). -/
def GcmTamperProof (W : WebCrypto) : Prop :=
  ∀ k iv p i b, i < (W.aesGcmEnc k iv p).length →
    b ≠ (W.aesGcmEnc k iv p).getD i 0 →
    W.aesGcmDec k iv ((W.aesGcmEnc k iv p).set i b) = none

/-- TextDecoder inverts TextEncoder. -/
def Utf8RoundTrip (W : WebCrypto) : Prop :=
  ∀ s, W.utf8Decode (W.utf8Encode s) = s

/-- atob inverts btoa. -/
def B64RoundTrip (W : WebCrypto) : Prop :=
  ∀ b, W.atobFn (W.btoaFn b) = b

/-- btoa output never contains the dot character (the base64 alphabet is
A-Z, a-z, 0-9, plus, slash and the padding equals sign). -/
def B64NoDot (W : WebCrypto) : Prop :=
  ∀ b, '.' ∉ (W.btoaFn b).data

/-- PBKDF2 emits exactly the requested number of bits. -/
def Pbkdf2Len (W : WebCrypto) : Prop :=
  ∀ pw s it bits, (W.pbkdf2 pw s it bits).length = bits / 8

/-- Model of a CryptoKey: raw bytes plus the attributes crypto.subtle
enforces (algorithm binding, extractability, allowed usages). -/
structure CryptoKeyM where
  raw : Bytes
  algName : String
  extractable : Bool
  usages : List String
deriving DecidableEq, Repr

/-- crypto.subtle.encrypt: rejects (InvalidAccessError) unless the key was
created for this algorithm with the encrypt usage. -/
def subtleEncrypt (W : WebCrypto) (alg : String) (iv : Bytes)
    (key : CryptoKeyM) (data : Bytes) : Option Bytes :=
  if key.algName = alg ∧ "encrypt" ∈ key.usages then
    some (W.aesGcmEnc key.raw iv data)
  else
    none

/-- crypto.subtle.decrypt: rejects unless the key matches the algorithm and
carries the decrypt usage; none also on tag-verification failure. -/
def subtleDecrypt (W : WebCrypto) (alg : String) (iv : Bytes)
    (key : CryptoKeyM) (data : Bytes) : Option Bytes :=
  if key.algName = alg ∧ "decrypt" ∈ key.usages then
    W.aesGcmDec key.raw iv data
  else
    none

/-- crypto.subtle.importKey for raw key material. -/
def subtleImportKey (raw : Bytes) (alg : String) (ext : Bool)
    (usages : List String) : CryptoKeyM :=
  ⟨raw, alg, ext, usages⟩

/-- crypto.subtle.exportKey: rejects on a non-extractable key. -/
def subtleExportKey (key : CryptoKeyM) : Option Bytes :=
  if key.extractable then some key.raw else none

/-- crypto.subtle.deriveKey with PBKDF2: the base key must have been
imported for PBKDF2 with the deriveKey usage. -/
def subtleDeriveKey (W : WebCrypto) (baseKey : CryptoKeyM) (salt : Bytes)
    (iterations : Nat) (targetAlg : String) (lengthBits : Nat) (ext : Bool)
    (usages : List String) : Option CryptoKeyM :=
  if baseKey.algName = "PBKDF2" ∧ "deriveKey" ∈ baseKey.usages then
    some ⟨W.pbkdf2 baseKey.raw salt iterations lengthBits, targetAlg, ext, usages⟩
  else
    none

namespace CryptoLayer

/-- EncryptionConfig from the crypto layer. -/
structure EncryptionConfig where
  algorithm : String
  keyLength : Nat
  ivLength : Nat

/-- PBKDF2Config from the crypto layer. -/
structure PBKDF2Config where
  iterations : Nat
  hash : String
  saltLength : Nat

def ENCRYPTION_CONFIG : EncryptionConfig :=
  { algorithm := "AES-GCM", keyLength := 256, ivLength := 12 }

def PBKDF2_CONFIG : PBKDF2Config :=
  { iterations := 600000, hash := "SHA-256", saltLength := 32 }

/-- EncryptedData: ciphertext plus IV. -/
structure EncryptedData where
  ciphertext : Bytes
  iv : Bytes
deriving DecidableEq, Repr

/-- The string-or-ArrayBuffer argument of encryptData. -/
inductive PlainData where
  | str (s : String)
  | buf (b : Bytes)
deriving DecidableEq, Repr

/-- Whether the plaintext was passed as a string (drives the asString flag
of decryptData on the way back). -/
def PlainData.isStr : PlainData → Bool
  | .str _ => true
  | .buf _ => false

/-- deriveKeyFromPassword.  rand models the output of
crypto.getRandomValues(new Uint8Array(PBKDF2_CONFIG.saltLength)) drawn when
no salt is supplied. -/
def deriveKeyFromPassword (W : WebCrypto) (rand : Bytes) (password : String)
    (salt : Option Bytes) : Option (CryptoKeyM × Bytes) :=
  let keySalt := salt.getD rand
  let passwordKey := subtleImportKey (W.utf8Encode password) "PBKDF2" false ["deriveKey"]
  (subtleDeriveKey W passwordKey keySalt PBKDF2_CONFIG.iterations
      ENCRYPTION_CONFIG.algorithm ENCRYPTION_CONFIG.keyLength false
      ["encrypt", "decrypt"]).map (fun k => (k, keySalt))

/-- encryptData.  iv models the fresh crypto.getRandomValues output of this
call; none models the thrown Failed-to-encrypt error. -/
def encryptData (W : WebCrypto) (iv : Bytes) (data : PlainData)
    (key : CryptoKeyM) : Option EncryptedData :=
  let dataBytes := match data with
    | .str s => W.utf8Encode s
    | .buf b => b
  (subtleEncrypt W ENCRYPTION_CONFIG.algorithm iv key dataBytes).map
    (fun ct => { ciphertext := ct, iv := iv })

/-- decryptData; none models the thrown Failed-to-decrypt error covering
tag-verification failure. -/
def decryptData (W : WebCrypto) (encryptedData : EncryptedData)
    (key : CryptoKeyM) (asString : Bool) : Option PlainData :=
  match subtleDecrypt W ENCRYPTION_CONFIG.algorithm encryptedData.iv key
      encryptedData.ciphertext with
  | none => none
  | some decryptedBytes =>
      some (if asString then .str (W.utf8Decode decryptedBytes)
            else .buf decryptedBytes)

end CryptoLayer

namespace StreamSvc

/-- EncryptionConfig of StreamEncryptionService. -/
structure StreamConfig where
  algorithm : String
  keySize : Nat
  ivSize : Nat
  chunkSize : Nat
deriving DecidableEq, Repr

def DEFAULT_CONFIG : StreamConfig :=
  { algorithm := "AES-GCM", keySize := 256, ivSize := 12,
    chunkSize := 1024 * 1024 }

def KEY_DERIVATION_ITERATIONS : Nat := 100000

/-- The mutable state of a StreamEncryptionService instance. -/
structure Svc where
  config : StreamConfig
  cryptoKey : Option CryptoKeyM
deriving DecidableEq, Repr

/-- A fresh service built on the default config (constructor with no
config override); the Worker holds no modelled state. -/
def mkSvc : Svc := { config := DEFAULT_CONFIG, cryptoKey := none }

/-- initialize(masterKey): imports the base64 master key for PBKDF2 key
derivation only (non-extractable, usage deriveKey). -/
def initSvc (W : WebCrypto) (svc : Svc) (masterKey : String) : Svc :=
  { svc with
      cryptoKey := some (subtleImportKey (W.atobFn masterKey) "PBKDF2" false
        ["deriveKey"]) }

/-- chunkFile: the source loop slices file[offset, offset+chunkSize) for
offset = 0, chunkSize, 2*chunkSize, ... while offset < file.size, which for
a positive chunk size is this take/drop recursion.  (With chunkSize = 0 the
source loop would never terminate; the claims assume the positive default.) -/
def chunkFile (chunkSize : Nat) (file : Bytes) : List Bytes :=
  if h : chunkSize = 0 ∨ file = [] then []
  else file.take chunkSize :: chunkFile chunkSize (file.drop chunkSize)
termination_by file.length
decreasing_by
  push_neg at h
  simp only [List.length_drop]
  have hpos : 0 < file.length := List.length_pos.mpr h.2
  omega

/-- deriveFileKey(attachmentId): PBKDF2 from the service master key with the
base64-decoded attachment id as salt; the derived AES-GCM key is created
non-extractable with encrypt and decrypt usages. -/
def deriveFileKey (W : WebCrypto) (svc : Svc) (attachmentId : String) :
    Option CryptoKeyM :=
  match svc.cryptoKey with
  | none => none
  | some ck =>
      subtleDeriveKey W ck (W.atobFn attachmentId) KEY_DERIVATION_ITERATIONS
        svc.config.algorithm svc.config.keySize false ["encrypt", "decrypt"]

/-- encryptChunk: fresh random IV (passed explicitly), AES-GCM, both parts
base64 encoded. -/
def encryptChunk (W : WebCrypto) (svc : Svc) (iv : Bytes) (data : Bytes)
    (key : CryptoKeyM) : Option (String × String) :=
  (subtleEncrypt W svc.config.algorithm iv key data).map
    (fun ct => (W.btoaFn ct, W.btoaFn iv))

/-- decryptChunk: base64 decode the ciphertext and IV, then AES-GCM
decrypt; uses only this one chunk's data. -/
def decryptChunk (W : WebCrypto) (svc : Svc) (encryptedData : String)
    (key : CryptoKeyM) (iv : String) : Option Bytes :=
  subtleDecrypt W svc.config.algorithm (W.atobFn iv) key
    (W.atobFn encryptedData)

/-- encryptFileKey: export the file key raw, encrypt it under the service
master key, return ciphertextBase64.ivBase64. -/
def encryptFileKey (W : WebCrypto) (svc : Svc) (iv : Bytes)
    (fileKey : CryptoKeyM) : Option String :=
  match svc.cryptoKey with
  | none => none
  | some ck =>
      match subtleExportKey fileKey with
      | none => none
      | some rawKey =>
          (subtleEncrypt W svc.config.algorithm iv ck rawKey).map
            (fun ct => W.btoaFn ct ++ "." ++ W.btoaFn iv)

/-- decryptFileKey: split on the dot, base64 decode, decrypt under the
service master key, re-import as a non-extractable AES-GCM key. -/
def decryptFileKey (W : WebCrypto) (svc : Svc) (encryptedFileKey : String) :
    Option CryptoKeyM :=
  match svc.cryptoKey with
  | none => none
  | some ck =>
      match encryptedFileKey.split (fun c => c = '.') with
      | encrypted :: iv :: _ =>
          (subtleDecrypt W svc.config.algorithm (W.atobFn iv) ck
              (W.atobFn encrypted)).map
            (fun raw => subtleImportKey raw svc.config.algorithm false
              ["encrypt", "decrypt"])
      | _ => none

end StreamSvc

namespace Relay

/-- A WebSocket connection: object identity is modelled by id, readyState
true means OPEN. -/
structure Conn where
  id : Nat
  readyState : Bool
deriving DecidableEq, Repr

/-- Server-side room: name, owning user, the in-memory Y.Doc snapshot
(modelled as the list of applied updates), connected clients. -/
structure RoomM where
  name : String
  userId : String
  doc : List Bytes
  clients : List Conn
deriving DecidableEq, Repr

/-- Observable relay outputs: JSON control frames (type plus error code),
binary frames, and socket closes with a status code. -/
inductive WsEffect where
  | sendJson (connId : Nat) (msgType : String) (code : String)
  | sendBinary (connId : Nat) (data : Bytes)
  | close (connId : Nat) (code : Nat)
deriving DecidableEq, Repr

def WS_CONFIG_maxRoomSize : Nat := 100

/-- A nullable/empty URL search parameter normalised by JS truthiness
(null and the empty string are both falsy). -/
def strParam : Option String → Option String
  | none => none
  | some s => if s = "" then none else some s

/-- rooms.set(name, room): replace an existing entry or append. -/
def setRoom (rooms : List RoomM) (r : RoomM) : List RoomM :=
  if rooms.any (fun x => x.name == r.name) then
    rooms.map (fun x => if x.name == r.name then r else x)
  else
    rooms ++ [r]

/-- broadcast: send the raw bytes to every client of the room other than
the sender whose socket is OPEN. -/
def broadcast (room : RoomM) (data : Bytes) (excludeId : Nat) :
    List WsEffect :=
  (room.clients.filter (fun c => c.id ≠ excludeId ∧ c.readyState)).map
    (fun c => WsEffect.sendBinary c.id data)

/-- handleMessage: drop empty updates silently; apply the update to the
room document (yValid models whether Y.applyUpdate accepts the bytes) and
broadcast the identical bytes to the other clients; on a Y.js failure send
a SYNC_ERROR control frame to the sender only. -/
def handleMessage (yValid : Bytes → Bool) (ws : Conn) (data : Bytes)
    (room : RoomM) : RoomM × List WsEffect :=
  if data.length = 0 then (room, [])
  else if yValid data then
    ({ room with doc := room.doc ++ [data] }, broadcast room data ws.id)
  else
    (room, [WsEffect.sendJson ws.id "ERROR" "SYNC_ERROR"])

/-- The tail of handleConnection once a room has been obtained: register
the client, confirm, and send the current document snapshot if nonempty. -/
def joinRoom (encodeState : List Bytes → Bytes) (rooms : List RoomM)
    (room : RoomM) (conn : Conn) : List RoomM × List WsEffect :=
  let room' := { room with clients := room.clients ++ [conn] }
  let st := encodeState room.doc
  (setRoom rooms room',
    [WsEffect.sendJson conn.id "CONNECTED" ""] ++
      (if st.length > 0 then [WsEffect.sendBinary conn.id st] else []))

/-- handleConnection.  verifyTok models jose's jwtVerify, returning the
token's embedded userId; tokenP, userIdP, roomP are the URL search
parameters. -/
def handleConnection (verifyTok : String → Option String)
    (encodeState : List Bytes → Bytes) (rooms : List RoomM) (conn : Conn)
    (tokenP userIdP roomP : Option String) : List RoomM × List WsEffect :=
  let roomName := match strParam roomP with
    | some r => r
    | none => "user-" ++ (match userIdP with | some u => u | none => "null")
  match strParam tokenP, strParam userIdP with
  | some token, some userId =>
      (match verifyTok token with
       | none =>
           (rooms, [WsEffect.sendJson conn.id "ERROR" "AUTH_ERROR",
                    WsEffect.close conn.id 1008])
       | some decodedUserId =>
           if decodedUserId ≠ userId then
             (rooms, [WsEffect.sendJson conn.id "ERROR" "AUTH_ERROR",
                      WsEffect.close conn.id 1008])
           else
             match rooms.find? (fun r => r.name == roomName) with
             | some room =>
                 if room.userId ≠ userId then
                   (rooms, [WsEffect.sendJson conn.id "ERROR" "AUTH_ERROR",
                            WsEffect.close conn.id 1003])
                 else if WS_CONFIG_maxRoomSize ≤ room.clients.length then
                   (rooms, [WsEffect.sendJson conn.id "ERROR" "SYNC_ERROR",
                            WsEffect.close conn.id 1013])
                 else
                   joinRoom encodeState rooms room conn
             | none =>
                 let room : RoomM :=
                   { name := roomName, userId := userId, doc := [], clients := [] }
                 if WS_CONFIG_maxRoomSize ≤ room.clients.length then
                   (setRoom rooms room,
                    [WsEffect.sendJson conn.id "ERROR" "SYNC_ERROR",
                     WsEffect.close conn.id 1013])
                 else
                   joinRoom encodeState (setRoom rooms room) room conn)
  | _, _ =>
      (rooms, [WsEffect.sendJson conn.id "ERROR" "AUTH_ERROR",
               WsEffect.close conn.id 1008])

end Relay

namespace ShareApi

/-- Server-side stored share record.  The ShareMetadata interface and the
createShare handler define no createdBy field, while revokeShare reads one;
createdBy is therefore an Option that createShare leaves at none
(JS undefined). -/
structure ShareRecord where
  encryptedNoteId : String
  encryptedData : String
  iv : String
  createdAt : Nat
  expiresAt : Option Nat
  accessCount : Nat
  maxAccessCount : Option Nat
  createdBy : Option String
deriving DecidableEq, Repr

/-- db.shares.findOne on encryptedNoteId. -/
def findShare (db : List ShareRecord) (id : String) : Option ShareRecord :=
  db.find? (fun s => s.encryptedNoteId == id)

/-- db.shares.update on encryptedNoteId. -/
def updateShare (db : List ShareRecord) (id : String) (s : ShareRecord) :
    List ShareRecord :=
  db.map (fun x => if x.encryptedNoteId == id then s else x)

/-- createShare: stores the envelope with accessCount 0; newId models the
generated crypto.randomUUID, now models Date.now().  No createdBy is
recorded. -/
def createShare (db : List ShareRecord) (newId : String)
    (encryptedData iv : String) (expiresAt maxAccessCount : Option Nat)
    (now : Nat) : List ShareRecord × String :=
  (db ++ [{ encryptedNoteId := newId, encryptedData := encryptedData,
            iv := iv, createdAt := now, expiresAt := expiresAt,
            accessCount := 0, maxAccessCount := maxAccessCount,
            createdBy := none }], newId)

/-- getShare responses (404, 410 expired, 410 access limit reached, 200). -/
inductive ShareResp where
  | notFound
  | expired
  | limitReached
  | ok (encryptedData iv : String) (createdAt : Nat) (expiresAt : Option Nat)
deriving DecidableEq, Repr

/-- The share.expiresAt and share.expiresAt less-than-now test, with JS
truthiness: an absent or zero expiresAt disables the check. -/
def expiredCheck (now : Nat) (s : ShareRecord) : Bool :=
  match s.expiresAt with
  | some e => e ≠ 0 && e < now
  | none => false

/-- The share.maxAccessCount and accessCount at-or-over-limit test, with JS
truthiness: an absent or zero maxAccessCount means unlimited. -/
def limitCheck (s : ShareRecord) : Bool :=
  match s.maxAccessCount with
  | some m => m ≠ 0 && m ≤ s.accessCount
  | none => false

/-- Everything getShare does after its findOne await resolves with the
snapshot: the checks run on the snapshot, and the increment is written back
to whatever the database holds at write time (db.shares.update is a second
await).  This split is exactly the source's await structure. -/
def getShareAfterRead (now : Nat) (db : List ShareRecord) (id : String)
    (snapshot : Option ShareRecord) : ShareResp × List ShareRecord :=
  match snapshot with
  | none => (.notFound, db)
  | some share =>
      if expiredCheck now share then (.expired, db)
      else if limitCheck share then (.limitReached, db)
      else
        (.ok share.encryptedData share.iv share.createdAt share.expiresAt,
         updateShare db id { share with accessCount := share.accessCount + 1 })

/-- getShare run to completion with no interleaved request. -/
def getShare (now : Nat) (db : List ShareRecord) (id : String) :
    ShareResp × List ShareRecord :=
  getShareAfterRead now db id (findShare db id)

/-- Two getShare requests racing on the same grant, interleaved so that
both findOne awaits resolve against the initial database before either
update runs - a schedule the single-threaded Node event loop permits
because findOne and update are separate awaits. -/
def raceTwoGets (now : Nat) (db : List ShareRecord) (id : String) :
    ShareResp × ShareResp × List ShareRecord :=
  let snap1 := findShare db id
  let snap2 := findShare db id
  let res1 := getShareAfterRead now db id snap1
  let res2 := getShareAfterRead now res1.2 id snap2
  (res1.1, res2.1, res2.2)

/-- revokeShare responses. -/
inductive RevokeResp where
  | forbidden
  | success
deriving DecidableEq, Repr

/-- revokeShare: 403 unless the record's createdBy equals the caller
(undefined never equals a string); otherwise delete the record. -/
def revokeShare (db : List ShareRecord) (id : String) (userId : String) :
    RevokeResp × List ShareRecord :=
  match findShare db id with
  | none => (.forbidden, db)
  | some share =>
      if share.createdBy ≠ some userId then (.forbidden, db)
      else (.success, db.filter (fun x => x.encryptedNoteId ≠ id))

end ShareApi

namespace ToyPlatform

/-!
A concrete executable instance of the WebCrypto interface, used to witness
the platform hypotheses of the theorems below: encryption appends an
additive checksum tag over key, IV and plaintext (rejecting any single-byte
change), text is coded three bytes per character, and the binary-string
base64 stand-in shifts every byte into the character range from 256 up,
which contains no dot.
-/

def sumB (l : Bytes) : Byte := l.foldr (· + ·) 0

def toyTag (k iv p : Bytes) : Byte := sumB p + sumB k + sumB iv

def toyEnc (k iv p : Bytes) : Bytes := p ++ [toyTag k iv p]

def toyDec (k iv c : Bytes) : Option Bytes :=
  match c.getLast? with
  | none => none
  | some t => if t = toyTag k iv c.dropLast then some c.dropLast else none

def encChar (c : Char) : List Byte :=
  [⟨c.toNat / 65536 % 256, Nat.mod_lt _ (by norm_num)⟩,
   ⟨c.toNat / 256 % 256, Nat.mod_lt _ (by norm_num)⟩,
   ⟨c.toNat % 256, Nat.mod_lt _ (by norm_num)⟩]

def decChars : List Byte → List Char
  | b0 :: b1 :: b2 :: rest =>
      Char.ofNat (b0.val * 65536 + b1.val * 256 + b2.val) :: decChars rest
  | _ => []

def toyUtf8Encode (s : String) : Bytes :=
  s.data.foldr (fun c acc => encChar c ++ acc) []

def toyUtf8Decode (b : Bytes) : String := ⟨decChars b⟩

def charOfByte (v : Byte) : Char := Char.ofNat (v.val + 256)

def byteOfChar (c : Char) : Byte := ⟨(c.toNat - 256) % 256, by omega⟩

def toyBtoa (b : Bytes) : String := ⟨b.map charOfByte⟩

def toyAtob (s : String) : Bytes := s.data.map byteOfChar

def toyPbkdf2 (pw salt : Bytes) (iterations bits : Nat) : Bytes :=
  List.replicate (bits / 8) (sumB pw + sumB salt)

def Wtoy : WebCrypto :=
  { aesGcmEnc := toyEnc, aesGcmDec := toyDec, pbkdf2 := toyPbkdf2,
    utf8Encode := toyUtf8Encode, utf8Decode := toyUtf8Decode,
    btoaFn := toyBtoa, atobFn := toyAtob }

theorem toNat_ofNat_lt (n : Nat) (h : n < 55296) : (Char.ofNat n).toNat = n := by
  have hv : Nat.isValidChar n := Or.inl h
  simp [Char.ofNat, Char.toNat]
  rw [dif_pos hv]
  simp [Char.ofNatAux, UInt32.toNat, BitVec.toNat_ofNatLt]

theorem charToNatLt (c : Char) : c.toNat < 1114112 := by
  have := c.valid
  simp [Char.toNat]
  rcases this with h | h
  · omega
  · omega

theorem sumB_cons (a : Byte) (l : Bytes) : sumB (a :: l) = a + sumB l := rfl

theorem sumB_set (l : Bytes) (i : Nat) (b : Byte) (h : i < l.length) :
    sumB (l.set i b) = sumB l + b - l.getD i 0 := by
  induction l generalizing i with
  | nil => simp at h
  | cons a tl ih =>
      cases i with
      | zero => simp [sumB_cons]; abel
      | succ j =>
          have hj : j < tl.length := by simpa using h
          simp [sumB_cons, ih j hj]
          abel

theorem toyGcmCorrect : GcmCorrect Wtoy := by
  intro k iv p
  show toyDec k iv (toyEnc k iv p) = some p
  unfold toyDec toyEnc
  rw [List.getLast?_concat, List.dropLast_concat]
  simp

theorem toyGcmTamper : GcmTamperProof Wtoy := by
  intro k iv p i b hi hb
  replace hi : i < (toyEnc k iv p).length := hi
  replace hb : b ≠ (toyEnc k iv p).getD i 0 := hb
  show toyDec k iv ((toyEnc k iv p).set i b) = none
  have hlen : (toyEnc k iv p).length = p.length + 1 := by simp [toyEnc]
  rw [hlen] at hi
  rcases Nat.lt_succ_iff_lt_or_eq.mp hi with hlt | heq
  · -- a data byte was changed: the checksum no longer matches
    have ha : (toyEnc k iv p).getD i 0 = p.getD i 0 :=
      List.getD_append _ _ _ _ hlt
    rw [ha] at hb
    have hset : (toyEnc k iv p).set i b = p.set i b ++ [toyTag k iv p] := by
      unfold toyEnc
      exact List.set_append_left _ _ hlt
    rw [hset]
    unfold toyDec
    rw [List.getLast?_concat, List.dropLast_concat]
    have hne : toyTag k iv p ≠ toyTag k iv (p.set i b) := by
      intro hct
      apply hb
      unfold toyTag at hct
      rw [sumB_set p i b hlt] at hct
      linear_combination -hct
    simp [hne]
  · -- the tag byte was changed: it no longer matches the checksum
    subst heq
    have ha : (toyEnc k iv p).getD p.length 0 = toyTag k iv p := by
      unfold toyEnc
      simp [List.getD_append_right]
    rw [ha] at hb
    have hset : (toyEnc k iv p).set p.length b = p ++ [b] := by
      unfold toyEnc
      rw [List.set_append_right _ _ (Nat.le_refl _)]
      simp
    rw [hset]
    unfold toyDec
    rw [List.getLast?_concat, List.dropLast_concat]
    simp [hb]

theorem decChars_encChar (c : Char) (rest : Bytes) :
    decChars (encChar c ++ rest) = c :: decChars rest := by
  have hv : c.toNat < 1114112 := charToNatLt c
  show Char.ofNat _ :: decChars rest = c :: decChars rest
  congr 1
  have harith : c.toNat / 65536 % 256 * 65536 + c.toNat / 256 % 256 * 256 +
      c.toNat % 256 = c.toNat := by omega
  rw [harith]
  exact Char.ofNat_toNat c

theorem toyUtf8RT : Utf8RoundTrip Wtoy := by
  intro s
  show toyUtf8Decode (toyUtf8Encode s) = s
  unfold toyUtf8Decode toyUtf8Encode
  have : ∀ l : List Char,
      decChars (l.foldr (fun c acc => encChar c ++ acc) []) = l := by
    intro l
    induction l with
    | nil => rfl
    | cons c tl ih => simp [List.foldr_cons, decChars_encChar, ih]
  rw [this s.data]

theorem byteOfChar_charOfByte (v : Byte) : byteOfChar (charOfByte v) = v := by
  unfold byteOfChar charOfByte
  have hlt : v.val + 256 < 55296 := by omega
  apply Fin.ext
  simp [toNat_ofNat_lt _ hlt]

theorem charOfByte_ne_dot (v : Byte) : charOfByte v ≠ '.' := by
  intro h
  have := congrArg Char.toNat h
  rw [charOfByte, toNat_ofNat_lt _ (by omega)] at this
  have hdot : ('.' : Char).toNat = 46 := rfl
  omega

theorem toyB64RT : B64RoundTrip Wtoy := by
  intro b
  show toyAtob (toyBtoa b) = b
  unfold toyAtob toyBtoa
  show (b.map charOfByte).map byteOfChar = b
  rw [List.map_map]
  have : byteOfChar ∘ charOfByte = id := funext byteOfChar_charOfByte
  rw [this, List.map_id]

theorem toyB64NoDot : B64NoDot Wtoy := by
  intro b
  show '.' ∉ (toyBtoa b).data
  unfold toyBtoa
  show '.' ∉ b.map charOfByte
  intro hmem
  rcases List.mem_map.mp hmem with ⟨v, _, hv⟩
  exact charOfByte_ne_dot v hv

theorem toyPbkdf2Len : Pbkdf2Len Wtoy := by
  intro pw s it bits
  show (toyPbkdf2 pw s it bits).length = bits / 8
  simp [toyPbkdf2]

end ToyPlatform


namespace CryptoLayer

/-- The byte encoding of the data argument of encryptData. -/
def PlainData.toBytes (W : WebCrypto) : PlainData → Bytes
  | .str s => W.utf8Encode s
  | .buf b => b

/-- Inversion of a successful encryptData call: the envelope carries the
call's IV, and its ciphertext is the AES-GCM encryption of the encoded
plaintext under the key's raw bytes; the key necessarily matched the
algorithm with the encrypt usage. -/
theorem encryptData_some (W : WebCrypto) (iv : Bytes) (data : PlainData)
    (key : CryptoKeyM) (env : EncryptedData)
    (henv : encryptData W iv data key = some env) :
    env.iv = iv
    ∧ env.ciphertext = W.aesGcmEnc key.raw iv (data.toBytes W)
    ∧ key.algName = ENCRYPTION_CONFIG.algorithm
    ∧ "encrypt" ∈ key.usages := by
  by_cases hcond : key.algName = ENCRYPTION_CONFIG.algorithm ∧ "encrypt" ∈ key.usages
  · cases data with
    | str s =>
        unfold encryptData subtleEncrypt at henv
        simp only [if_pos hcond, Option.map_some] at henv
        cases henv
        exact ⟨rfl, rfl, hcond.1, hcond.2⟩
    | buf b =>
        unfold encryptData subtleEncrypt at henv
        simp only [if_pos hcond, Option.map_some] at henv
        cases henv
        exact ⟨rfl, rfl, hcond.1, hcond.2⟩
  · cases data with
    | str s =>
        unfold encryptData subtleEncrypt at henv
        simp [if_neg hcond] at henv
    | buf b =>
        unfold encryptData subtleEncrypt at henv
        simp [if_neg hcond] at henv

end CryptoLayer

/-- C1: for every plaintext (string or byte buffer) and every AES-GCM key
carrying the encrypt and decrypt usages, decrypting the envelope produced
by encryptData with decryptData under the same key returns exactly the
plaintext (as a string when it was passed as a string, via the asString
flag). -/
theorem C1_encrypt_decrypt_round_trip (W : WebCrypto) (key : CryptoKeyM)
    (iv : Bytes) (data : CryptoLayer.PlainData)
    (hG : GcmCorrect W) (hU : Utf8RoundTrip W)
    (halg : key.algName = "AES-GCM")
    (henc : "encrypt" ∈ key.usages) (hdec : "decrypt" ∈ key.usages) :
    (CryptoLayer.encryptData W iv data key).bind
      (fun env => CryptoLayer.decryptData W env key data.isStr) = some data := by
  simp only [GcmCorrect] at hG
  simp only [Utf8RoundTrip] at hU
  cases data with
  | str s =>
      simp [CryptoLayer.encryptData, CryptoLayer.decryptData,
        CryptoLayer.PlainData.isStr, subtleEncrypt, subtleDecrypt,
        CryptoLayer.ENCRYPTION_CONFIG, halg, henc, hdec, hG, hU s]
  | buf b =>
      simp [CryptoLayer.encryptData, CryptoLayer.decryptData,
        CryptoLayer.PlainData.isStr, subtleEncrypt, subtleDecrypt,
        CryptoLayer.ENCRYPTION_CONFIG, halg, henc, hdec, hG]

/-- Witness for C1 at a concrete key, IV and string plaintext on the
executable toy platform. -/
theorem C1_witness :
    (CryptoLayer.encryptData ToyPlatform.Wtoy [1, 2, 3]
        (CryptoLayer.PlainData.str "ok")
        (subtleImportKey [7] "AES-GCM" false ["encrypt", "decrypt"])).bind
      (fun env => CryptoLayer.decryptData ToyPlatform.Wtoy env
        (subtleImportKey [7] "AES-GCM" false ["encrypt", "decrypt"])
        (CryptoLayer.PlainData.str "ok").isStr)
      = some (CryptoLayer.PlainData.str "ok") :=
  C1_encrypt_decrypt_round_trip ToyPlatform.Wtoy
    (subtleImportKey [7] "AES-GCM" false ["encrypt", "decrypt"])
    [1, 2, 3] (CryptoLayer.PlainData.str "ok")
    ToyPlatform.toyGcmCorrect ToyPlatform.toyUtf8RT rfl
    (by decide) (by decide)

/-- C2: for every envelope produced by encryptData, changing any single
byte of the ciphertext (which includes the AES-GCM authentication tag) and
calling decryptData with the same key fails (the thrown integrity error is
modelled as none): altered or partially-decrypted plaintext is never
returned, whichever asString flag is used. -/
theorem C2_tamper_rejected (W : WebCrypto) (key : CryptoKeyM) (iv : Bytes)
    (data : CryptoLayer.PlainData) (env : CryptoLayer.EncryptedData)
    (i : Nat) (b : Byte) (asString : Bool)
    (hT : GcmTamperProof W)
    (henv : CryptoLayer.encryptData W iv data key = some env)
    (hi : i < env.ciphertext.length)
    (hb : b ≠ env.ciphertext.getD i 0) :
    CryptoLayer.decryptData W
      { ciphertext := env.ciphertext.set i b, iv := env.iv } key asString
      = none := by
  simp only [GcmTamperProof] at hT
  obtain ⟨hiv, hct, _, _⟩ :=
    CryptoLayer.encryptData_some W iv data key env henv
  unfold CryptoLayer.decryptData subtleDecrypt
  by_cases hcond : key.algName = CryptoLayer.ENCRYPTION_CONFIG.algorithm ∧
      "decrypt" ∈ key.usages
  · rw [if_pos hcond]
    rw [hct] at hi hb ⊢
    rw [hiv]
    rw [hT key.raw iv (data.toBytes W) i b hi hb]
  · rw [if_neg hcond]

/-- Witness for C2: a concrete envelope on the toy platform with its first
ciphertext byte changed is rejected. -/
theorem C2_witness :
    CryptoLayer.decryptData ToyPlatform.Wtoy
      { ciphertext :=
          (ToyPlatform.Wtoy.aesGcmEnc [7] [1, 2, 3] [5, 6]).set 0 9,
        iv := [1, 2, 3] }
      (subtleImportKey [7] "AES-GCM" false ["encrypt", "decrypt"]) false
      = none := by
  have h := C2_tamper_rejected ToyPlatform.Wtoy
    (subtleImportKey [7] "AES-GCM" false ["encrypt", "decrypt"])
    [1, 2, 3] (CryptoLayer.PlainData.buf [5, 6])
    { ciphertext := ToyPlatform.Wtoy.aesGcmEnc [7] [1, 2, 3] [5, 6],
      iv := [1, 2, 3] }
    0 9 false ToyPlatform.toyGcmTamper (by decide) (by decide) (by decide)
  exact h

/-- C6: deriveKeyFromPassword is deterministic (the result with an explicit
salt does not depend on the random source, so two calls with the same
password and salt agree), it invokes PBKDF2 with the configured 600000
iterations (at least 600000) producing a 256-bit (32-byte) key, and with
the salt omitted it uses the 32 freshly drawn random bytes as the salt and
returns that salt alongside the key. -/
theorem C6_derive_key_from_password (W : WebCrypto) (rand rand2 : Bytes)
    (password : String) (salt : Bytes)
    (hL : Pbkdf2Len W)
    (hrand : rand.length = CryptoLayer.PBKDF2_CONFIG.saltLength) :
    CryptoLayer.deriveKeyFromPassword W rand password (some salt)
        = CryptoLayer.deriveKeyFromPassword W rand2 password (some salt)
    ∧ 600000 ≤ CryptoLayer.PBKDF2_CONFIG.iterations
    ∧ (∀ k s, CryptoLayer.deriveKeyFromPassword W rand password (some salt)
          = some (k, s) →
        k.raw = W.pbkdf2 (W.utf8Encode password) salt
            CryptoLayer.PBKDF2_CONFIG.iterations
            CryptoLayer.ENCRYPTION_CONFIG.keyLength
        ∧ k.raw.length = 32 ∧ s = salt)
    ∧ (∀ k s, CryptoLayer.deriveKeyFromPassword W rand password none
          = some (k, s) →
        s = rand ∧ s.length = 32) := by
  simp only [Pbkdf2Len] at hL
  refine ⟨rfl, by norm_num [CryptoLayer.PBKDF2_CONFIG], ?_, ?_⟩
  · intro k s h
    unfold CryptoLayer.deriveKeyFromPassword subtleDeriveKey
        subtleImportKey at h
    simp only [Option.getD_some, if_pos (by decide : ("PBKDF2":String) = "PBKDF2" ∧ "deriveKey" ∈ ["deriveKey"]), Option.map_some] at h
    cases h
    refine ⟨rfl, ?_, rfl⟩
    rw [hL]
    decide
  · intro k s h
    unfold CryptoLayer.deriveKeyFromPassword subtleDeriveKey
        subtleImportKey at h
    simp only [Option.getD_none, if_pos (by decide : ("PBKDF2":String) = "PBKDF2" ∧ "deriveKey" ∈ ["deriveKey"]), Option.map_some] at h
    cases h
    exact ⟨rfl, hrand⟩

/-- Witness for C6 on the toy platform with a concrete password, a
32-byte random draw and a concrete salt. -/
theorem C6_witness :
    CryptoLayer.deriveKeyFromPassword ToyPlatform.Wtoy
        (List.replicate 32 0) "pw" (some [4])
      = CryptoLayer.deriveKeyFromPassword ToyPlatform.Wtoy [9] "pw" (some [4])
    ∧ 600000 ≤ CryptoLayer.PBKDF2_CONFIG.iterations
    ∧ (∀ k s, CryptoLayer.deriveKeyFromPassword ToyPlatform.Wtoy
          (List.replicate 32 0) "pw" (some [4]) = some (k, s) →
        k.raw = ToyPlatform.Wtoy.pbkdf2 (ToyPlatform.Wtoy.utf8Encode "pw") [4]
            CryptoLayer.PBKDF2_CONFIG.iterations
            CryptoLayer.ENCRYPTION_CONFIG.keyLength
        ∧ k.raw.length = 32 ∧ s = [4])
    ∧ (∀ k s, CryptoLayer.deriveKeyFromPassword ToyPlatform.Wtoy
          (List.replicate 32 0) "pw" none = some (k, s) →
        s = List.replicate 32 0 ∧ s.length = 32) :=
  C6_derive_key_from_password ToyPlatform.Wtoy (List.replicate 32 0) [9]
    "pw" [4] ToyPlatform.toyPbkdf2Len (by simp [CryptoLayer.PBKDF2_CONFIG])

namespace StreamSvc

/-- chunkFile produces exactly ceiling(fileSize / chunkSize) chunks. -/
theorem chunkFile_length (cs : Nat) (hcs : 0 < cs) (file : Bytes) :
    (chunkFile cs file).length = (file.length + cs - 1) / cs := by
  generalize hn : file.length = n
  induction n using Nat.strong_induction_on generalizing file with
  | _ n ih =>
      unfold chunkFile
      by_cases hfile : file = []
      · subst hfile
        simp at hn
        subst hn
        simp [Nat.div_eq_of_lt (by omega : cs - 1 < cs)]
      · rw [dif_neg (by push_neg; exact ⟨by omega, hfile⟩)]
        have hpos : 0 < n := by
          rw [← hn]
          exact List.length_pos.mpr hfile
        have hdrop : (file.drop cs).length = n - cs := by
          simp [List.length_drop, hn]
        have hrec := ih (n - cs) (by omega) (file.drop cs) hdrop
        simp only [List.length_cons, hrec]
        rcases Nat.lt_or_ge n cs with hlt | hge
        · have h0 : n - cs = 0 := by omega
          rw [h0]
          have h1 : (cs - 1) / cs = 0 := Nat.div_eq_of_lt (by omega)
          have h2 : (n + cs - 1) / cs = 1 :=
            Nat.div_eq_of_lt_le (by omega) (by omega)
          simp [h1, h2]
        · have h1 : n - cs + cs - 1 = n - 1 := by omega
          have h2 : n + cs - 1 = (n - 1) + cs := by omega
          rw [h1, h2, Nat.add_div_right _ hcs]

end StreamSvc

/-- C7: encrypting a file at a positive chunk size (the default is 1 MiB,
so a 10 MiB payload gives 10 chunks) produces exactly
ceiling(fileSize / chunkSize) chunks, and every chunk is encrypted on its
own with the fresh per-call nonce recorded next to it, so each chunk
decrypts individually with no other chunk present. -/
theorem C7_chunk_count_and_independence (W : WebCrypto)
    (svc : StreamSvc.Svc) (key : CryptoKeyM) (file : Bytes)
    (hG : GcmCorrect W) (hB : B64RoundTrip W)
    (hcs : 0 < svc.config.chunkSize)
    (halg : key.algName = svc.config.algorithm)
    (henc : "encrypt" ∈ key.usages) (hdec : "decrypt" ∈ key.usages) :
    (StreamSvc.chunkFile svc.config.chunkSize file).length
      = (file.length + svc.config.chunkSize - 1) / svc.config.chunkSize
    ∧ ∀ c ∈ StreamSvc.chunkFile svc.config.chunkSize file, ∀ iv,
        StreamSvc.encryptChunk W svc iv c key
          = some (W.btoaFn (W.aesGcmEnc key.raw iv c), W.btoaFn iv)
        ∧ StreamSvc.decryptChunk W svc (W.btoaFn (W.aesGcmEnc key.raw iv c))
            key (W.btoaFn iv) = some c := by
  simp only [GcmCorrect] at hG
  simp only [B64RoundTrip] at hB
  refine ⟨StreamSvc.chunkFile_length _ hcs file, ?_⟩
  intro c _ iv
  constructor
  · simp [StreamSvc.encryptChunk, subtleEncrypt, halg, henc]
  · simp [StreamSvc.decryptChunk, subtleDecrypt, halg, hdec, hB, hG]

/-- Witness for C7 on the toy platform: the default-config service, a
concrete key and a three-byte file (one chunk at the 1 MiB default). -/
theorem C7_witness :
    (StreamSvc.chunkFile StreamSvc.mkSvc.config.chunkSize [1, 2, 3]).length
      = (([1, 2, 3] : Bytes).length + StreamSvc.mkSvc.config.chunkSize - 1)
          / StreamSvc.mkSvc.config.chunkSize
    ∧ ∀ c ∈ StreamSvc.chunkFile StreamSvc.mkSvc.config.chunkSize [1, 2, 3],
        ∀ iv,
        StreamSvc.encryptChunk ToyPlatform.Wtoy StreamSvc.mkSvc iv c
            (subtleImportKey [7] "AES-GCM" false ["encrypt", "decrypt"])
          = some (ToyPlatform.Wtoy.btoaFn
              (ToyPlatform.Wtoy.aesGcmEnc [7] iv c),
              ToyPlatform.Wtoy.btoaFn iv)
        ∧ StreamSvc.decryptChunk ToyPlatform.Wtoy StreamSvc.mkSvc
            (ToyPlatform.Wtoy.btoaFn (ToyPlatform.Wtoy.aesGcmEnc [7] iv c))
            (subtleImportKey [7] "AES-GCM" false ["encrypt", "decrypt"])
            (ToyPlatform.Wtoy.btoaFn iv) = some c :=
  C7_chunk_count_and_independence ToyPlatform.Wtoy StreamSvc.mkSvc
    (subtleImportKey [7] "AES-GCM" false ["encrypt", "decrypt"]) [1, 2, 3]
    ToyPlatform.toyGcmCorrect ToyPlatform.toyB64RT (by decide) rfl
    (by decide) (by decide)

/-- C10 (code bug): the claimed wrap-unwrap round trip never gets off the
ground.  initialize imports the master key for the PBKDF2 algorithm with
only the deriveKey usage, so crypto.subtle.encrypt inside encryptFileKey
rejects it (InvalidAccessError) for every file key and IV - and file keys
produced by deriveFileKey are additionally non-extractable, so even the
exportKey step would reject.  encryptFileKey therefore always throws,
modelled as none, and decryptFileKey(encryptFileKey(k)) can never return
the bytes of k. -/
theorem C10_wrap_unwrap_never_succeeds (W : WebCrypto) (masterKey : String)
    (iv : Bytes) (fileKey : CryptoKeyM) :
    StreamSvc.encryptFileKey W (StreamSvc.initSvc W StreamSvc.mkSvc masterKey)
      iv fileKey = none := by
  unfold StreamSvc.encryptFileKey StreamSvc.initSvc StreamSvc.mkSvc
      subtleImportKey subtleEncrypt subtleExportKey
  by_cases hx : fileKey.extractable
  · simp only [hx, if_true]
    rw [if_neg]
    · rfl
    · intro hand
      have : ("PBKDF2" : String) = "AES-GCM" := hand.1
      simp at this
  · simp [hx]

/-- C9: a zero-length binary frame from a joined device is silently
dropped: the room (snapshot document and client set) is unchanged, nothing
is broadcast and no error frame is sent to anyone. -/
theorem C9_empty_frame_dropped (yValid : Bytes → Bool) (ws : Relay.Conn)
    (room : Relay.RoomM) :
    Relay.handleMessage yValid ws [] room = (room, []) := by
  simp [Relay.handleMessage]

/-- C4 counterexample: in a room with two open devices, the empty binary
frame received from device 1 is neither applied to the snapshot nor
delivered to device 2, contradicting the claim's universal forwarding
contract for every received binary frame. -/
theorem C4_counterexample_empty_frame :
    (Relay.handleMessage (fun _ => true) { id := 1, readyState := true } []
        { name := "r", userId := "alice", doc := [],
          clients := [{ id := 1, readyState := true },
                      { id := 2, readyState := true }] }).1.doc = []
    ∧ Relay.WsEffect.sendBinary 2 [] ∉
        (Relay.handleMessage (fun _ => true) { id := 1, readyState := true }
          []
          { name := "r", userId := "alice", doc := [],
            clients := [{ id := 1, readyState := true },
                        { id := 2, readyState := true }] }).2 := by
  constructor
  · rfl
  · simp [Relay.handleMessage]

/-- C4 (amended): for every nonempty binary update frame that Y.applyUpdate
accepts, the relay appends it to the room's snapshot document and delivers
the identical, unmodified frame bytes to every other currently-open
connection in the room, and no binary frame is ever sent to the sender's
connection id. -/
theorem C4_forwarding_contract (yValid : Bytes → Bool) (ws : Relay.Conn)
    (data : Bytes) (room : Relay.RoomM)
    (hne : data ≠ []) (hv : yValid data = true) :
    (Relay.handleMessage yValid ws data room).1
        = { room with doc := room.doc ++ [data] }
    ∧ (∀ c ∈ room.clients, c.id ≠ ws.id → c.readyState = true →
        Relay.WsEffect.sendBinary c.id data
          ∈ (Relay.handleMessage yValid ws data room).2)
    ∧ (∀ i u, Relay.WsEffect.sendBinary i u
          ∈ (Relay.handleMessage yValid ws data room).2 →
        i ≠ ws.id ∧ u = data) := by
  have hlen : data.length ≠ 0 := by
    intro h
    exact hne (List.length_eq_zero.mp h)
  refine ⟨?_, ?_, ?_⟩
  · simp [Relay.handleMessage, hlen, hv]
  · intro c hc hne2 hrs
    simp only [Relay.handleMessage, hlen, hv, Relay.broadcast, if_false,
      if_true]
    simp only [List.mem_map, List.mem_filter]
    refine ⟨c, ⟨hc, ?_⟩, rfl⟩
    simp [hne2, hrs]
  · intro i u hmem
    rw [Relay.handleMessage] at hmem
    rw [if_neg hlen, if_pos hv] at hmem
    simp only [Relay.broadcast, List.mem_map, List.mem_filter] at hmem
    rcases hmem with ⟨a, ⟨_, hprop⟩, heq⟩
    simp only [decide_eq_true_eq, Bool.and_eq_true, decide_not] at hprop
    cases heq
    refine ⟨?_, rfl⟩
    simpa using hprop.1

/-- Witness for C4's amended forwarding contract on a concrete room with
two other devices, one of them closed. -/
theorem C4_witness :
    (Relay.handleMessage (fun _ => true) { id := 1, readyState := true } [5]
        { name := "r", userId := "alice", doc := [],
          clients := [{ id := 1, readyState := true },
                      { id := 2, readyState := true },
                      { id := 3, readyState := false }] }).1
      = { name := "r", userId := "alice", doc := [[5]],
          clients := [{ id := 1, readyState := true },
                      { id := 2, readyState := true },
                      { id := 3, readyState := false }] }
    ∧ (∀ c ∈ ([{ id := 1, readyState := true },
                { id := 2, readyState := true },
                { id := 3, readyState := false }] : List Relay.Conn),
        c.id ≠ 1 → c.readyState = true →
        Relay.WsEffect.sendBinary c.id [5]
          ∈ (Relay.handleMessage (fun _ => true)
              { id := 1, readyState := true } [5]
              { name := "r", userId := "alice", doc := [],
                clients := [{ id := 1, readyState := true },
                            { id := 2, readyState := true },
                            { id := 3, readyState := false }] }).2)
    ∧ (∀ i u, Relay.WsEffect.sendBinary i u
          ∈ (Relay.handleMessage (fun _ => true)
              { id := 1, readyState := true } [5]
              { name := "r", userId := "alice", doc := [],
                clients := [{ id := 1, readyState := true },
                            { id := 2, readyState := true },
                            { id := 3, readyState := false }] }).2 →
        i ≠ 1 ∧ u = [5]) := by
  have h := C4_forwarding_contract (fun _ => true)
    { id := 1, readyState := true } [5]
    { name := "r", userId := "alice", doc := [],
      clients := [{ id := 1, readyState := true },
                  { id := 2, readyState := true },
                  { id := 3, readyState := false }] }
    (by decide) rfl
  exact h

/-- C3: a connection whose verified token carries principal A, attempting
to join an existing room recorded as owned by a different principal, is
rejected with an AUTH_ERROR control frame and closed with code 1003; the
room map is left unchanged (so the connection is never added to the room's
client set), and since broadcast only ever targets members of the client
set, a connection absent from it receives no frame broadcast in that
room. -/
theorem C3_room_isolation (verifyTok : String → Option String)
    (encodeState : List Bytes → Bytes) (rooms : List Relay.RoomM)
    (conn : Relay.Conn) (token a rn : String) (room : Relay.RoomM)
    (hv : verifyTok token = some a)
    (ht : token ≠ "") (ha : a ≠ "") (hrn : rn ≠ "")
    (hfind : rooms.find? (fun r => r.name == rn) = some room)
    (howner : room.userId ≠ a)
    (hnotin : conn.id ∉ room.clients.map (fun c => c.id)) :
    Relay.handleConnection verifyTok encodeState rooms conn (some token)
        (some a) (some rn)
      = (rooms, [Relay.WsEffect.sendJson conn.id "ERROR" "AUTH_ERROR",
                 Relay.WsEffect.close conn.id 1003])
    ∧ ∀ u e, Relay.WsEffect.sendBinary conn.id u ∉ Relay.broadcast room u e := by
  constructor
  · rw [Relay.handleConnection]
    simp only [Relay.strParam, if_neg ht, if_neg ha, if_neg hrn, hv, hfind]
    rw [if_neg (show ¬(a ≠ a) from fun h => h rfl), if_pos howner]
  · intro u e hmem
    apply hnotin
    simp only [Relay.broadcast, List.mem_map, List.mem_filter] at hmem
    rcases hmem with ⟨c, ⟨hc, _⟩, heq⟩
    injection heq with hid _
    exact List.mem_map.mpr ⟨c, hc, hid⟩

/-- Witness for C3: a connection verified as alice trying to join bob's
existing room r1 is rejected, closed with 1003, the room map is unchanged,
and no broadcast in that room targets it. -/
theorem C3_witness :
    Relay.handleConnection
        (fun t => if t = "tok" then some "alice" else none) (fun _ => [])
        [{ name := "r1", userId := "bob", doc := [],
           clients := [{ id := 7, readyState := true }] }]
        { id := 9, readyState := true } (some "tok") (some "alice")
        (some "r1")
      = ([{ name := "r1", userId := "bob", doc := [],
            clients := [{ id := 7, readyState := true }] }],
         [Relay.WsEffect.sendJson 9 "ERROR" "AUTH_ERROR",
          Relay.WsEffect.close 9 1003])
    ∧ Relay.WsEffect.sendBinary 9 [1] ∉
        Relay.broadcast
          { name := "r1", userId := "bob", doc := [],
            clients := [{ id := 7, readyState := true }] } [1] 7 := by
  have h := C3_room_isolation
    (fun t => if t = "tok" then some "alice" else none) (fun _ => [])
    [{ name := "r1", userId := "bob", doc := [],
       clients := [{ id := 7, readyState := true }] }]
    { id := 9, readyState := true } "tok" "alice" "r1"
    { name := "r1", userId := "bob", doc := [],
      clients := [{ id := 7, readyState := true }] }
    (by decide) (by decide) (by decide) (by decide) (by decide) (by decide)
    (by decide)
  exact ⟨h.1, h.2 [1] 7⟩

/-- C5 (code bug): sequentially, a maxAccessCount 1 grant is served once
and the second redemption is rejected with the access-limit error; but two
racing redemptions interleaved at the await boundary between findOne and
update - both reads before either write - both pass the stale quota check
and both receive the ciphertext, because the check and increment are not
atomic.  Evaluated here on a concrete single-use grant. -/
theorem C5_quota_not_atomic :
    (ShareApi.getShare 100
        [{ encryptedNoteId := "g1", encryptedData := "CT", iv := "IV",
           createdAt := 5, expiresAt := none, accessCount := 0,
           maxAccessCount := some 1, createdBy := none }] "g1").1
      = ShareApi.ShareResp.ok "CT" "IV" 5 none
    ∧ (ShareApi.getShare 100
        (ShareApi.getShare 100
          [{ encryptedNoteId := "g1", encryptedData := "CT", iv := "IV",
             createdAt := 5, expiresAt := none, accessCount := 0,
             maxAccessCount := some 1, createdBy := none }] "g1").2 "g1").1
      = ShareApi.ShareResp.limitReached
    ∧ ShareApi.raceTwoGets 100
        [{ encryptedNoteId := "g1", encryptedData := "CT", iv := "IV",
           createdAt := 5, expiresAt := none, accessCount := 0,
           maxAccessCount := some 1, createdBy := none }] "g1"
      = (ShareApi.ShareResp.ok "CT" "IV" 5 none,
         ShareApi.ShareResp.ok "CT" "IV" 5 none,
         [{ encryptedNoteId := "g1", encryptedData := "CT", iv := "IV",
            createdAt := 5, expiresAt := none, accessCount := 1,
            maxAccessCount := some 1, createdBy := none }]) := by
  refine ⟨by decide, by decide, by decide⟩

/-- C8 (code bug): createShare stores no createdBy, and revokeShare only
deletes when the record's createdBy equals the caller, so every revocation
attempt on a grant created through createShare - including the creator's
own - is rejected with 403 Forbidden and the record is left in place. -/
theorem C8_revoke_always_forbidden (caller : String) :
    ShareApi.revokeShare
        (ShareApi.createShare [] "s1" "CT" "IV" none none 0).1 "s1" caller
      = (ShareApi.RevokeResp.forbidden,
         (ShareApi.createShare [] "s1" "CT" "IV" none none 0).1) := by
  simp [ShareApi.revokeShare, ShareApi.createShare, ShareApi.findShare]
